import Mathlib

/-
Verification development for the disfluency evaluation script
src/evaluation/disf_evaluation.py of the deep_disfluency repository.

The script is Python 2 with true division (from __future__ import division),
so every numeric quantity is embedded as a rational number, and a Python
expression that can raise an exception is embedded as an Except value whose
error carries the exception name.  Functions of the helper module eval_utils
are not part of the source tree; where a claim depends on one of them, the
definition is modelled from the specification and says so in its comment.
-/

namespace DisfEval

/-- div helper (disf_evaluation.py lines 154-157): returns 0.0 when the
denominator or the numerator is 0.0, otherwise the true quotient. -/
def div (enum denom : ℚ) : ℚ :=
  if denom = 0 ∨ enum = 0 then 0 else enum / denom

/-- Python true division as used throughout the source: raises
ZeroDivisionError on a zero denominator, modelled as an Except error. -/
def py_div (a b : ℚ) : Except String ℚ :=
  if b = 0 then Except.error "ZeroDivisionError" else Except.ok (a / b)

/-- Speaker rate tuple (lines 298-307): val[0] repairs in the hypothesis,
val[1] repairs in the gold, val[2] utterances in the hypothesis, val[3]
utterances in the gold, val[4] hypothesis word count, val[5] gold word
count.  All six are accumulated integer counts. -/
abbrev SpeakerRateTuple := Fin 6 → ℕ

/-- Concrete speaker rate tuple with entries a, b, c, d, e, f. -/
def srt (a b c d e f : ℕ) : SpeakerRateTuple
  | 0 => a
  | 1 => b
  | 2 => c
  | 3 => d
  | 4 => e
  | 5 => f

/-- hyp_rate_turn (line 369): 0 if val[0] == 0 or val[2] == 0 else
val[0] / val[2]. -/
def hyp_rate_turn (val : SpeakerRateTuple) : Except String ℚ :=
  if val 0 = 0 ∨ val 2 = 0 then Except.ok 0 else py_div (val 0) (val 2)

/-- hyp_rate_word (line 370): 0 if val[0] == 0 or val[4] == 0 else
val[0] / val[4]. -/
def hyp_rate_word (val : SpeakerRateTuple) : Except String ℚ :=
  if val 0 = 0 ∨ val 4 = 0 then Except.ok 0 else py_div (val 0) (val 4)

/-- gold_rate_turn (line 371): 0 if val[1] == 0 or val[5] == 0 else
val[1] / val[3].  Note that the guard tests val[5], the gold word count,
while the division is by val[3], the gold utterance count. -/
def gold_rate_turn (val : SpeakerRateTuple) : Except String ℚ :=
  if val 1 = 0 ∨ val 5 = 0 then Except.ok 0 else py_div (val 1) (val 3)

/-- gold_rate_word (line 372): 0 if val[1] == 0 or val[5] == 0 else
val[1] / val[5]. -/
def gold_rate_word (val : SpeakerRateTuple) : Except String ℚ :=
  if val 1 = 0 ∨ val 5 = 0 then Except.ok 0 else py_div (val 1) (val 5)

/-- Modelled from the spec: section 4.5 defines the gold per-turn rate as 0
if its numerator val[1] or its needed denominator val[3] is 0, and
otherwise as val[1] / val[3].  This is the intended guard the source was
supposed to implement at line 371. -/
def gold_rate_turn_spec (val : SpeakerRateTuple) : ℚ :=
  if val 1 = 0 ∨ val 3 = 0 then 0 else (val 1 : ℚ) / (val 3 : ℚ)

/-- edit_overhead_rel computation (lines 509-511): the reported relative
edit overhead is 100 * ((edit_overhead[0] / edit_overhead[1]) - 1), where
edit_overhead[0] is the total number of revisions and edit_overhead[1] the
total number of final tokens.  The division carries no zero guard, so a
raised ZeroDivisionError propagates. -/
def edit_overhead_rel (eo : ℚ × ℚ) : Except String ℚ :=
  match py_div eo.1 eo.2 with
  | Except.error e => Except.error e
  | Except.ok q => Except.ok (100 * (q - 1))

/-- Helper for py_split_ok: splits a character list at every occurrence of
the separator character, keeping empty fields, as Python str.split does for
a one-character separator. -/
def py_split_char_aux (sep : Char) : List Char → List Char → List (List Char)
  | [], acc => [acc.reverse]
  | c :: rest, acc =>
    if c = sep then acc.reverse :: py_split_char_aux sep rest []
    else py_split_char_aux sep rest (c :: acc)

/-- Python str.split(sep) for a one-character separator (the source only
ever splits on "," and "."): never raises. -/
def py_split_ok (s : String) (sep : Char) : List String :=
  (py_split_char_aux sep s.toList []).map String.mk

/-- Python str.split(sep): raises ValueError when the separator is the
empty string, otherwise splits on the separator (one-character separators,
which are the only ones the source uses, are modelled exactly). -/
def py_split (s : String) (sep : String) : Except String (List String) :=
  match sep.toList with
  | [] => Except.error "ValueError: empty separator"
  | c :: _ => Except.ok (py_split_ok s c)

/-- Modelled from the spec: p_r_f from eval_utils (not under src), section
4.2: precision = TP/(TP+FP) or 0 if the denominator is 0; recall =
TP/(TP+FN) or 0 if the denominator is 0; F1 = the harmonic mean
2PR/(P+R), or 0 if both precision and recall are 0. -/
def p_r_f (tp fp fn : ℕ) : ℚ × ℚ × ℚ :=
  let p : ℚ := if tp + fp = 0 then 0 else (tp : ℚ) / ((tp : ℚ) + (fp : ℚ))
  let r : ℚ := if tp + fn = 0 then 0 else (tp : ℚ) / ((tp : ℚ) + (fn : ℚ))
  let f1 : ℚ := if p = 0 ∧ r = 0 then 0 else 2 * p * r / (p + r)
  (p, r, f1)

/-- Pooled counts for a combined tag (lines 328-335): TPS, FPS and FNS
accumulate the [0], [1] and [2] entries of tag_dict over the subtags
obtained by tag.split("."), starting from 0.  A tag_dict state is a map
from tag code to its (TP, FP, FN) triple. -/
def combined_tag_counts (td : String → ℕ × ℕ × ℕ) (tag : String) :
    ℕ × ℕ × ℕ :=
  (py_split_ok tag '.').foldl
    (fun acc subtag =>
      (acc.1 + (td subtag).1, acc.2.1 + (td subtag).2.1,
       acc.2.2 + (td subtag).2.2))
    (0, 0, 0)

/-- Reported precision, recall and F1 for a combined tag (lines 336-339):
p_r_f applied to the pooled counts. -/
def combined_tag_prf (td : String → ℕ × ℕ × ℕ) (tag : String) :
    ℚ × ℚ × ℚ :=
  let c := combined_tag_counts td tag
  p_r_f c.1 c.2.1 c.2.2

/-- np.average of a sample list: the arithmetic mean; on an empty list
numpy returns NaN, modelled as none. -/
def np_average (xs : List ℚ) : Option ℚ :=
  if xs.isEmpty then none else some (xs.sum / (xs.length : ℚ))

/-- t_t_detection reporting (lines 512-516): each reported value is
np.average of the sample list collected in tag_dict for that tag and
granularity. -/
def t_t_detection_result (samples : List ℚ) : Option ℚ :=
  np_average samples

/-- A gold event of interest for time-to-detection: its gold onset time
and, if the hypothesis stream ever correctly flags it, the time of the
first update that does. -/
structure GoldEvent where
  onset : ℚ
  detected : Option ℚ

/-- Modelled from the spec: the sample collection of
final_hyp_from_increco_and_incremental_metrics (eval_utils, not under
src), section 4.4: a gold event first correctly flagged at update time t
contributes the sample t minus its gold onset; an event never detected by
end of input contributes no sample at all. -/
def ttd_samples : List GoldEvent → List ℚ
  | [] => []
  | e :: rest =>
    match e.detected with
    | some t => (t - e.onset) :: ttd_samples rest
    | none => ttd_samples rest

/-- One row of gold or hypothesis data: start time, end time, word,
part-of-speech tag, and annotation tag markup (module docstring and the
increco format description, lines 1-46). -/
structure IncRecord where
  start_time : ℚ
  end_time : ℚ
  word : String
  pos : String
  tag : String

/-- One incremental update snapshot: the rows it delivers, keyed by their
interval ID.  In the increco format each Time block carries such rows. -/
abbrev Snapshot := List (String × IncRecord)

/-- Value of a gold speaker entry: gold_data[dialogue] = (mappings, utts,
pos_tags, labels) as built in the main block (lines 613-619); component
[0] holds the time spans, [1] the words, [3] the labels. -/
structure GoldVal where
  timings : List (ℚ × ℚ)
  words : List String
  pos_tags : List String
  labels : List String

/-- A final (stabilized) hypothesis: the latest known row for every
interval ID. -/
abbrev FinalHyp := String → Option IncRecord

/-- Value of a prediction speaker entry: either the increco stream of
timestamped snapshots, or, after the incremental scorer has replaced it at
line 500, the single stabilized final hypothesis. -/
inductive HypEntry where
  | stream (snaps : List (ℚ × Snapshot))
  | finalHyp (h : FinalHyp)

/-- Python dict lookup on an association list (first entry with the key
wins; the dicts of the source have unique keys). -/
def dict_lookup {β : Type} : List (String × β) → String → Option β
  | [], _ => none
  | (k, v) :: rest, s => if k = s then some v else dict_lookup rest s

/-- Python dict assignment d[s] = v on an association list with key s
already present: replaces the stored value of key s in place and keeps
every other entry. -/
def dictUpdate {β : Type} : List (String × β) → String → β →
    List (String × β)
  | [], _, _ => []
  | (k, v) :: rest, s, w =>
    if k = s then (s, w) :: dictUpdate rest s w
    else (k, v) :: dictUpdate rest s w

/-- sorted(d.keys()): the keys of the dict in sorted order (lines 247 and
478 iterate the speakers this way). -/
def sorted_keys {β : Type} (d : List (String × β)) : List String :=
  List.insertionSort (· ≤ ·) (d.map Prod.fst)

/-- Applying one snapshot to the hypothesis held so far: every interval ID
the snapshot mentions takes its new row, every other interval ID keeps its
previous row. -/
def apply_snapshot (cur : FinalHyp) (snap : Snapshot) : FinalHyp :=
  fun p =>
    match dict_lookup snap p with
    | some r => some r
    | none => cur p

/-- Modelled from the spec: the final hypothesis returned by
final_hyp_from_increco_and_incremental_metrics (eval_utils, not under
src), section 4.4: the stabilized hypothesis holds, for every record
position, the latest tag any snapshot assigned to it, and becomes the
Final Hypothesis fed to the final scorer. -/
def stabilize (snaps : List (ℚ × Snapshot)) : FinalHyp :=
  snaps.foldl (fun cur ts => apply_snapshot cur ts.2) (fun _ => none)

/-- A single snapshot read directly as a final hypothesis, the shape in
which the final scorer would receive it as single-shot output. -/
def snapshot_as_final (snap : Snapshot) : FinalHyp :=
  fun p => dict_lookup snap p

/-- Viewing a degenerate single-snapshot stream directly as final-scorer
input; entries of any other shape are left as they are. -/
def single_final_entry : HypEntry → HypEntry
  | HypEntry.stream ((_, snap) :: _) =>
      HypEntry.finalHyp (snapshot_as_final snap)
  | e => e

/-- One iteration of the speaker loop of incremental_output_disfluency_eval
(lines 478-501): a speaker missing from gold is skipped with a printed
notice; otherwise final_hyp_from_increco_and_incremental_metrics is run on
the stream (its time-to-detection and edit-overhead counter updates are
abstracted as the metrics parameter acting on a state of type σ, since
that helper is not under src) and the dict entry is replaced in place by
the stabilized final hypothesis.  Every key the loop visits is a key of
the dict and holds a snapshot stream, so the fall-through arm of the inner
match is never taken on real input. -/
def inc_step {σ : Type} (golD : String → Option GoldVal)
    (metrics : String → List (ℚ × Snapshot) → GoldVal → σ → σ)
    (acc : List (String × HypEntry) × σ) (s : String) :
    List (String × HypEntry) × σ :=
  match golD s with
  | none => acc
  | some g =>
    match dict_lookup acc.1 s with
    | some (HypEntry.stream snaps) =>
        (dictUpdate acc.1 s (HypEntry.finalHyp (stabilize snaps)),
         metrics s snaps g acc.2)
    | _ => acc

/-- Speaker loop of incremental_output_disfluency_eval (lines 478-501):
folds inc_step over the visited keys. -/
def inc_speaker_pass {σ : Type} (golD : String → Option GoldVal)
    (metrics : String → List (ℚ × Snapshot) → GoldVal → σ → σ)
    (ks : List String) (st : List (String × HypEntry) × σ) :
    List (String × HypEntry) × σ :=
  ks.foldl (inc_step golD metrics) st

/-- One iteration of the speaker loop of final_output_disfluency_eval
(lines 247-307): a speaker missing from gold is skipped with a printed
notice; otherwise the word- and interval-level accuracy updates and the
speaker rate accumulation (lines 253-307, built on eval_utils functions
not under src) are abstracted as the process parameter acting on a state
of type τ holding the tag dicts and the speaker rate dict. -/
def final_step {τ : Type} (golD : String → Option GoldVal)
    (process : String → HypEntry → GoldVal → τ → τ)
    (pred : List (String × HypEntry)) (acc : τ) (s : String) : τ :=
  match golD s with
  | none => acc
  | some g =>
    match dict_lookup pred s with
    | some h => process s h g acc
    | none => acc

/-- Speaker loop of final_output_disfluency_eval (lines 247-307): folds
final_step over the visited keys; the prediction dict is only read. -/
def final_eval_loop {τ : Type} (golD : String → Option GoldVal)
    (process : String → HypEntry → GoldVal → τ → τ) (ks : List String)
    (pred : List (String × HypEntry)) (st : τ) : τ :=
  ks.foldl (final_step golD process pred) st

/-- incremental_output_disfluency_eval (lines 418-526) at the level the
claims need: runs the incremental speaker pass over the sorted keys of the
prediction dict, mutating it in place, and then runs the final-output
evaluation on the mutated dict.  The returned tuple holds the prediction
dict after the call, the gold dict after the call (the source never
assigns to gold_speakers_dict, so it is returned as passed), the
incremental metric state, and the final-evaluation state. -/
def incremental_output_disfluency_eval {σ τ : Type}
    (golD : String → Option GoldVal)
    (metrics : String → List (ℚ × Snapshot) → GoldVal → σ → σ)
    (process : String → HypEntry → GoldVal → τ → τ)
    (pred : List (String × HypEntry)) (m0 : σ) (t0 : τ) :
    List (String × HypEntry) × (String → Option GoldVal) × σ × τ :=
  let r := inc_speaker_pass golD metrics (sorted_keys pred) (pred, m0)
  (r.1, golD, r.2, final_eval_loop golD process (sorted_keys r.1) r.1 t0)

/-- MODEL_INFO_HEADER (lines 82-84; the trailing backslashes in the source
continue the string literal without inserting anything). -/
def MODEL_INFO_HEADER : String :=
  "eval_corpus,model,context_win,ed_num,rp_num,rm_num,rpn_num,training_corpus"

/-- FINAL_OUTPUT_DISFLUENCY_ACCURACY_HEADER (lines 87-93). -/
def FINAL_OUTPUT_DISFLUENCY_ACCURACY_HEADER : String :=
  "p_<rm_{0},r_<rm_{0},f1_<rm_{0},p_<rm.<rp.<i_{0},r_<rm.<rp.<i_{0},f1_<rm.<rp.<i_{0},p_<rps_{0},r_<rps_{0},f1_<rps_{0},p_<rps_relaxed_{0},r_<rps_relaxed_{0},f1_<rps_relaxed_{0},p_<e_{0},r_<e_{0},f1_<e_{0},p_<e_relaxed_{0},r_<e_relaxed_{0},f1_<e_relaxed_{0}"

/-- FINAL_OUTPUT_DISFLUENCY_RATE_ACCURACY_HEADER (lines 95-100). -/
def FINAL_OUTPUT_DISFLUENCY_RATE_ACCURACY_HEADER : String :=
  "pearson_r_correl_rps_number,pearson_r_p_value_rps_number,pearson_r_correl_rps_rate_per_word,pearson_r_p_value_rps_rate_per_word,pearson_r_correl_rps_rate_per_utt,pearson_r_p_value_rps_rate_per_utt"

/-- INCREMENTAL_OUTPUT_DISFLUENCY_ACCURACY_HEADER (lines 102-109). -/
def INCREMENTAL_OUTPUT_DISFLUENCY_ACCURACY_HEADER : String :=
  "delayed_acc_<rm_1_{0},delayed_acc_<rm_2_{0},delayed_acc_<rm_3_{0},delayed_acc_<rm_4_{0},delayed_acc_<rm_5_{0},delayed_acc_<rm_6_{0},delayed_acc_<rm_mean_{0},t_t_detection_<rms_{0},t_t_detection_<rps_{0},t_t_detection_<e_{0},processing_overhead_{0},edit_overhead_rel_<rm"

/-- FINAL_OUTPUT_TTO_ACCURACY_HEADER (lines 111-112); the source string
contains a stray literal backslash before a space, kept here. -/
def FINAL_OUTPUT_TTO_ACCURACY_HEADER : String :=
  "p_t>_{0},r_t>_{0},f1_t>_{0},p_t>_{0},\\ r_t>_relaxed_{0},f1_t>_relaxed_{0},NIST_SU,DSER,SegER"

/-- INCREMENTAL_OUTPUT_TTO_ACCURACY_HEADER (lines 114-116). -/
def INCREMENTAL_OUTPUT_TTO_ACCURACY_HEADER : String :=
  "t_t_detection_t>_{0},t_t_detection_final_t>_{0},edit_overhead_rel_tto"

/-- ACCURACY_HEADER (lines 118-123): the comma join of the accuracy header
pieces. -/
def ACCURACY_HEADER : String :=
  String.intercalate ","
    [FINAL_OUTPUT_DISFLUENCY_ACCURACY_HEADER,
     FINAL_OUTPUT_TTO_ACCURACY_HEADER,
     INCREMENTAL_OUTPUT_DISFLUENCY_ACCURACY_HEADER,
     INCREMENTAL_OUTPUT_TTO_ACCURACY_HEADER,
     "edit_overhead_rel",
     FINAL_OUTPUT_DISFLUENCY_RATE_ACCURACY_HEADER]

/-- SPEAKER_RATE_HEADER (lines 126-130). -/
def SPEAKER_RATE_HEADER : String :=
  "corpus,conversation_no,speaker,total_turns,total_words,rps_hyp,rps_gold,rps_rate_per_utt_hyp,rps_rate_per_utt_gold,rps_rate_words_hyp,rps_rate_words_gold"

/-- sorted(speaker_rate_dict.items(), key=lambda x: x[0]) (line 576). -/
def sort_by_key (d : List (String × List ℚ)) : List (String × List ℚ) :=
  List.insertionSort (fun a b => a.1 ≤ b.1) d

/-- One speaker-rate file row (lines 579-587): the test filename, the
conversation number and speaker obtained by splitting the key on ":"
(speaker keys have the dialogue:speaker shape), then entries 2, 4, 0, 1,
5, 6, 7, 8 of the 10-element rate list of that speaker. -/
def speaker_rate_row (test_filename key : String) (val : List ℚ) : String :=
  String.intercalate ","
    ([test_filename, (py_split_ok key ':').headD "",
      ((py_split_ok key ':').drop 1).headD ""] ++
     ([val.getD 2 0, val.getD 4 0, val.getD 0 0, val.getD 1 0,
       val.getD 5 0, val.getD 6 0, val.getD 7 0,
       val.getD 8 0].map toString))

/-- save_results_to_file (lines 547-588).  File writes are modelled as the
lists of lines written to the results file and to the speaker rate file; a
raised exception aborts the call as an Except error.  Line 568 splits
ACCURACY_HEADER on the empty string, a ValueError in Python; and the
branch at line 574 taken when the speaker rate file does not yet exist
opens the unbound local variable speaker_rate_file (the parameter is
named speaker_rate_filename), an UnboundLocalError. -/
def save_results_to_file (results_file_exists speaker_rate_file_exists : Bool)
    (model_info results : String → String) (test_filename : String)
    (speaker_rate_dict : List (String × List ℚ)) :
    Except String (List String × List String) :=
  let results_header : List String :=
    if results_file_exists then []
    else [ MODEL_INFO_HEADER ++ "," ++ ACCURACY_HEADER ]
  match py_split MODEL_INFO_HEADER "," with
  | Except.error e => Except.error e
  | Except.ok info_cols =>
    let row_info := String.intercalate "," (info_cols.map model_info) ++ ","
    match py_split ACCURACY_HEADER "" with
    | Except.error e => Except.error e
    | Except.ok acc_cols =>
      let row_acc := String.intercalate "," (acc_cols.map results)
      let results_lines := results_header ++ [row_info ++ row_acc]
      if speaker_rate_file_exists then
        Except.ok (results_lines,
          (sort_by_key speaker_rate_dict).map
            (fun kv => speaker_rate_row test_filename kv.1 kv.2))
      else
        Except.error "UnboundLocalError: speaker_rate_file"

-- ==================== THEOREMS ====================

-- Association list (Python dict) helper lemmas.

theorem dict_lookup_map {β : Type} (f : β → β) (d : List (String × β))
    (k : String) :
    dict_lookup (d.map (fun p => (p.1, f p.2))) k
      = (dict_lookup d k).map f := by
  induction d with
  | nil => rfl
  | cons p rest ih =>
    obtain ⟨a, b⟩ := p
    by_cases ha : a = k
    · simp [dict_lookup, ha]
    · simp [dict_lookup, ha, ih]

theorem dict_lookup_mem {β : Type} (d : List (String × β)) (k : String)
    (v : β) (h : dict_lookup d k = some v) : (k, v) ∈ d := by
  induction d with
  | nil => simp [dict_lookup] at h
  | cons p rest ih =>
    obtain ⟨a, b⟩ := p
    simp only [dict_lookup] at h
    by_cases ha : a = k
    · subst ha
      rw [if_pos rfl] at h
      cases h
      exact List.mem_cons_self _ _
    · rw [if_neg ha] at h
      exact List.mem_cons_of_mem _ (ih h)

theorem dict_lookup_mem_keys {β : Type} (d : List (String × β)) (k : String)
    (v : β) (h : dict_lookup d k = some v) : k ∈ d.map Prod.fst :=
  List.mem_map.mpr ⟨(k, v), dict_lookup_mem d k v h, rfl⟩

theorem dict_lookup_update_ne {β : Type} (d : List (String × β))
    (s k : String) (v : β) (h : s ≠ k) :
    dict_lookup (dictUpdate d s v) k = dict_lookup d k := by
  induction d with
  | nil => rfl
  | cons p rest ih =>
    obtain ⟨a, b⟩ := p
    simp only [dictUpdate]
    by_cases ha : a = s
    · subst ha
      rw [if_pos rfl]
      simp only [dict_lookup, if_neg h]
      exact ih
    · rw [if_neg ha]
      simp only [dict_lookup]
      by_cases hak : a = k
      · rw [if_pos hak, if_pos hak]
      · rw [if_neg hak, if_neg hak]
        exact ih

theorem dict_lookup_update_self {β : Type} (d : List (String × β))
    (s : String) (v : β) (h : (dict_lookup d s).isSome) :
    dict_lookup (dictUpdate d s v) s = some v := by
  induction d with
  | nil => simp [dict_lookup] at h
  | cons p rest ih =>
    obtain ⟨a, b⟩ := p
    simp only [dictUpdate]
    by_cases ha : a = s
    · subst ha
      rw [if_pos rfl]
      simp [dict_lookup]
    · rw [if_neg ha]
      simp only [dict_lookup, if_neg ha] at h ⊢
      exact ih h

theorem dict_lookup_none_update {β : Type} (d : List (String × β))
    (s k : String) (v : β) (h : dict_lookup d k = none) :
    dict_lookup (dictUpdate d s v) k = none := by
  induction d with
  | nil => rfl
  | cons p rest ih =>
    obtain ⟨a, b⟩ := p
    simp only [dict_lookup] at h
    by_cases hak : a = k
    · rw [if_pos hak] at h
      cases h
    · rw [if_neg hak] at h
      simp only [dictUpdate]
      by_cases has : a = s
      · subst has
        rw [if_pos rfl]
        simp only [dict_lookup, if_neg hak]
        exact ih h
      · rw [if_neg has]
        simp only [dict_lookup, if_neg hak]
        exact ih h

theorem dictUpdate_keys {β : Type} (d : List (String × β)) (s : String)
    (v : β) : (dictUpdate d s v).map Prod.fst = d.map Prod.fst := by
  induction d with
  | nil => rfl
  | cons p rest ih =>
    obtain ⟨a, b⟩ := p
    simp only [dictUpdate]
    by_cases ha : a = s
    · subst ha
      rw [if_pos rfl]
      simp only [List.map_cons]
      rw [ih]
    · rw [if_neg ha]
      simp only [List.map_cons]
      rw [ih]

-- Lemmas about one incremental-loop iteration.

theorem inc_step_gold_none {σ : Type} (golD : String → Option GoldVal)
    (metrics : String → List (ℚ × Snapshot) → GoldVal → σ → σ)
    (acc : List (String × HypEntry) × σ) (s : String)
    (h : golD s = none) : inc_step golD metrics acc s = acc := by
  simp [inc_step, h]

theorem inc_step_lookup_ne {σ : Type} (golD : String → Option GoldVal)
    (metrics : String → List (ℚ × Snapshot) → GoldVal → σ → σ)
    (acc : List (String × HypEntry) × σ) (s k : String) (h : s ≠ k) :
    dict_lookup (inc_step golD metrics acc s).1 k = dict_lookup acc.1 k := by
  unfold inc_step
  cases hg : golD s with
  | none => rfl
  | some g =>
    cases hl : dict_lookup acc.1 s with
    | none => rfl
    | some e =>
      cases e with
      | stream snaps => exact dict_lookup_update_ne _ _ _ _ h
      | finalHyp hh => rfl

theorem inc_step_lookup_none {σ : Type} (golD : String → Option GoldVal)
    (metrics : String → List (ℚ × Snapshot) → GoldVal → σ → σ)
    (acc : List (String × HypEntry) × σ) (s k : String)
    (h : dict_lookup acc.1 k = none) :
    dict_lookup (inc_step golD metrics acc s).1 k = none := by
  unfold inc_step
  cases hg : golD s with
  | none => exact h
  | some g =>
    cases hl : dict_lookup acc.1 s with
    | none => exact h
    | some e =>
      cases e with
      | stream snaps => exact dict_lookup_none_update _ _ _ _ h
      | finalHyp hh => exact h

theorem inc_step_lookup_self {σ : Type} (golD : String → Option GoldVal)
    (metrics : String → List (ℚ × Snapshot) → GoldVal → σ → σ)
    (acc : List (String × HypEntry) × σ) (s : String)
    (snaps : List (ℚ × Snapshot)) (g : GoldVal) (hg : golD s = some g)
    (hl : dict_lookup acc.1 s = some (HypEntry.stream snaps)) :
    dict_lookup (inc_step golD metrics acc s).1 s
      = some (HypEntry.finalHyp (stabilize snaps)) := by
  simp only [inc_step, hg, hl]
  exact dict_lookup_update_self _ _ _ (by simp [hl])

theorem inc_step_keys {σ : Type} (golD : String → Option GoldVal)
    (metrics : String → List (ℚ × Snapshot) → GoldVal → σ → σ)
    (acc : List (String × HypEntry) × σ) (s : String) :
    (inc_step golD metrics acc s).1.map Prod.fst = acc.1.map Prod.fst := by
  unfold inc_step
  cases hg : golD s with
  | none => rfl
  | some g =>
    cases hl : dict_lookup acc.1 s with
    | none => rfl
    | some e =>
      cases e with
      | stream snaps => exact dictUpdate_keys _ _ _
      | finalHyp hh => rfl

-- Lemmas about the whole incremental speaker pass.

theorem inc_pass_cons {σ : Type} (golD : String → Option GoldVal)
    (metrics : String → List (ℚ × Snapshot) → GoldVal → σ → σ)
    (s : String) (rest : List String)
    (st : List (String × HypEntry) × σ) :
    inc_speaker_pass golD metrics (s :: rest) st
      = inc_speaker_pass golD metrics rest (inc_step golD metrics st s) :=
  rfl

theorem inc_pass_keys {σ : Type} (golD : String → Option GoldVal)
    (metrics : String → List (ℚ × Snapshot) → GoldVal → σ → σ)
    (ks : List String) (st : List (String × HypEntry) × σ) :
    (inc_speaker_pass golD metrics ks st).1.map Prod.fst
      = st.1.map Prod.fst := by
  induction ks generalizing st with
  | nil => rfl
  | cons s rest ih =>
    rw [inc_pass_cons, ih, inc_step_keys]

theorem inc_pass_lookup_not_mem {σ : Type} (golD : String → Option GoldVal)
    (metrics : String → List (ℚ × Snapshot) → GoldVal → σ → σ)
    (ks : List String) (st : List (String × HypEntry) × σ) (k : String)
    (h : k ∉ ks) :
    dict_lookup (inc_speaker_pass golD metrics ks st).1 k
      = dict_lookup st.1 k := by
  induction ks generalizing st with
  | nil => rfl
  | cons s rest ih =>
    have hs : s ≠ k := fun he => h (he ▸ List.mem_cons_self s rest)
    have hr : k ∉ rest := fun hm => h (List.mem_cons_of_mem s hm)
    rw [inc_pass_cons, ih _ hr, inc_step_lookup_ne _ _ _ _ _ hs]

theorem inc_pass_lookup_gold_none {σ : Type} (golD : String → Option GoldVal)
    (metrics : String → List (ℚ × Snapshot) → GoldVal → σ → σ)
    (ks : List String) (st : List (String × HypEntry) × σ) (k : String)
    (h : golD k = none) :
    dict_lookup (inc_speaker_pass golD metrics ks st).1 k
      = dict_lookup st.1 k := by
  induction ks generalizing st with
  | nil => rfl
  | cons s rest ih =>
    rw [inc_pass_cons, ih]
    by_cases hs : s = k
    · subst hs
      rw [inc_step_gold_none _ _ _ _ h]
    · rw [inc_step_lookup_ne _ _ _ _ _ hs]

theorem inc_pass_lookup_stream {σ : Type} (golD : String → Option GoldVal)
    (metrics : String → List (ℚ × Snapshot) → GoldVal → σ → σ)
    (ks : List String) (st : List (String × HypEntry) × σ) (k : String)
    (snaps : List (ℚ × Snapshot)) (g : GoldVal) (hnd : ks.Nodup)
    (hk : k ∈ ks) (hg : golD k = some g)
    (hl : dict_lookup st.1 k = some (HypEntry.stream snaps)) :
    dict_lookup (inc_speaker_pass golD metrics ks st).1 k
      = some (HypEntry.finalHyp (stabilize snaps)) := by
  induction ks generalizing st with
  | nil => cases hk
  | cons s rest ih =>
    rw [inc_pass_cons]
    rcases List.mem_cons.mp hk with rfl | hmem
    · have hrest : k ∉ rest := (List.nodup_cons.mp hnd).1
      rw [inc_pass_lookup_not_mem _ _ _ _ _ hrest]
      exact inc_step_lookup_self _ _ _ _ _ _ hg hl
    · have hs : s ≠ k := fun he =>
        (List.nodup_cons.mp hnd).1 (he ▸ hmem)
      refine ih _ (List.nodup_cons.mp hnd).2 hmem ?_
      rw [inc_step_lookup_ne _ _ _ _ _ hs]
      exact hl

-- Lemmas about the final-output speaker loop.

theorem final_loop_cons {τ : Type} (golD : String → Option GoldVal)
    (process : String → HypEntry → GoldVal → τ → τ) (s : String)
    (rest : List String) (pred : List (String × HypEntry)) (t0 : τ) :
    final_eval_loop golD process (s :: rest) pred t0
      = final_eval_loop golD process rest pred
          (final_step golD process pred t0 s) :=
  rfl

theorem final_eval_loop_congr {τ : Type} (golD : String → Option GoldVal)
    (process : String → HypEntry → GoldVal → τ → τ) (ks : List String)
    (d1 d2 : List (String × HypEntry)) (t0 : τ)
    (h : ∀ s ∈ ks, ∀ g, golD s = some g →
      dict_lookup d1 s = dict_lookup d2 s) :
    final_eval_loop golD process ks d1 t0
      = final_eval_loop golD process ks d2 t0 := by
  induction ks generalizing t0 with
  | nil => rfl
  | cons s rest ih =>
    rw [final_loop_cons, final_loop_cons]
    have hstep : final_step golD process d1 t0 s
        = final_step golD process d2 t0 s := by
      unfold final_step
      cases hg : golD s with
      | none => rfl
      | some g =>
        rw [h s (List.mem_cons_self s rest) g hg]
    rw [hstep]
    exact ih _ (fun a ha g hg => h a (List.mem_cons_of_mem s ha) g hg)

theorem inc_pass_lookup_none {σ : Type} (golD : String → Option GoldVal)
    (metrics : String → List (ℚ × Snapshot) → GoldVal → σ → σ)
    (ks : List String) (st : List (String × HypEntry) × σ) (k : String)
    (h : dict_lookup st.1 k = none) :
    dict_lookup (inc_speaker_pass golD metrics ks st).1 k = none := by
  induction ks generalizing st with
  | nil => exact h
  | cons s rest ih =>
    rw [inc_pass_cons]
    exact ih _ (inc_step_lookup_none _ _ _ _ _ h)

theorem stabilize_singleton (t : ℚ) (snap : Snapshot) :
    stabilize [(t, snap)] = snapshot_as_final snap := by
  funext p
  show apply_snapshot (fun _ => none) snap p = dict_lookup snap p
  unfold apply_snapshot
  cases h : dict_lookup snap p <;> simp [h]

theorem sorted_keys_nodup {β : Type} (d : List (String × β))
    (h : (d.map Prod.fst).Nodup) : (sorted_keys d).Nodup :=
  (List.perm_insertionSort _ _).nodup_iff.mpr h

theorem mem_sorted_keys {β : Type} (d : List (String × β)) (k : String)
    (h : k ∈ d.map Prod.fst) : k ∈ sorted_keys d :=
  (List.perm_insertionSort _ _).mem_iff.mpr h

theorem sorted_keys_congr {β : Type} (d1 d2 : List (String × β))
    (h : d1.map Prod.fst = d2.map Prod.fst) :
    sorted_keys d1 = sorted_keys d2 := by
  unfold sorted_keys
  rw [h]

/-- Claim C1 (code bug): the gold per-turn rate guard at line 371 tests the
gold word count val[5] instead of the needed denominator val[3].  On the
tuple (0, 1, 0, 2, 0, 0) the code returns 0 although the spec rate is
val[1] / val[3] = 1/2, and on the tuple (0, 1, 0, 0, 0, 1) the code raises
ZeroDivisionError although the spec rate is 0. -/
theorem c1_gold_rate_turn_guard_bug :
    gold_rate_turn (srt 0 1 0 2 0 0) = Except.ok 0 ∧
    gold_rate_turn_spec (srt 0 1 0 2 0 0) = 1 / 2 ∧
    gold_rate_turn (srt 0 1 0 0 0 1) = Except.error "ZeroDivisionError" ∧
    gold_rate_turn_spec (srt 0 1 0 0 0 1) = 0 := by
  refine ⟨?_, ?_, ?_, ?_⟩ <;>
    simp [gold_rate_turn, gold_rate_turn_spec, srt, py_div]

/-- Claim C2 (code bug): the edit-overhead relative percentage at lines
509-511 divides by the total-final-tokens counter without any zero guard,
so with edit_overhead counters [0, 0] (as when no hypothesis speaker is
present in the gold) it raises ZeroDivisionError instead of yielding 0.0.
The div helper itself does return 0 on a zero denominator or numerator. -/
theorem c2_edit_overhead_div_by_zero :
    edit_overhead_rel (0, 0) = Except.error "ZeroDivisionError" ∧
    div 3 0 = 0 ∧ div 0 7 = 0 := by
  refine ⟨?_, ?_, ?_⟩ <;> simp [edit_overhead_rel, py_div, div]

/-- Claim C5: for total revisions R and total final tokens T with T > 0 the
reported relative edit overhead equals 100 * ((R / T) - 1); a hypothesis
that never revises (R = T) yields exactly 0, and one extra revision raises
the value by 100 / T percentage points. -/
theorem c5_edit_overhead_formula (R T v : ℚ) (hT : 0 < T)
    (hv : edit_overhead_rel (R, T) = Except.ok v) :
    v = 100 * (R / T - 1) ∧
    edit_overhead_rel (T, T) = Except.ok 0 ∧
    edit_overhead_rel (R + 1, T) = Except.ok (v + 100 / T) := by
  have hT0 : T ≠ 0 := ne_of_gt hT
  simp only [edit_overhead_rel, py_div, if_neg hT0] at hv ⊢
  simp only [Except.ok.injEq] at hv ⊢
  refine ⟨hv.symm, ?_, ?_⟩
  · rw [div_self hT0]; norm_num
  · rw [← hv]; field_simp; ring

/-- Witness for claim C5 at R = 6, T = 4, v = 50. -/
theorem c5_edit_overhead_formula_witness :
    ((0 : ℚ) < 4 ∧ edit_overhead_rel (6, 4) = Except.ok 50) ∧
    ((50 : ℚ) = 100 * (6 / 4 - 1) ∧
     edit_overhead_rel (4, 4) = Except.ok 0 ∧
     edit_overhead_rel (6 + 1, 4) = Except.ok (50 + 100 / 4)) :=
  ⟨⟨by norm_num, by simp [edit_overhead_rel, py_div]; norm_num⟩,
   c5_edit_overhead_formula 6 4 50 (by norm_num)
     (by simp [edit_overhead_rel, py_div]; norm_num)⟩

/-- Claim C4: for every tag_dict state, the pooled counts for the combined
tag "<rm.<i.<rp" are exactly the componentwise sums of the (TP, FP, FN)
entries of the subtags "<rm", "<i" and "<rp", and the reported precision,
recall and F1 are p_r_f of those sums.  The statement quantifies over the
tag_dict state, so it covers both the word-level and the interval-level
dict, the two granularities the loop at lines 311-339 runs on. -/
theorem c4_pooled_combined_tag_counts (td : String → ℕ × ℕ × ℕ) :
    combined_tag_counts td "<rm.<i.<rp"
      = ((td "<rm").1 + (td "<i").1 + (td "<rp").1,
         (td "<rm").2.1 + (td "<i").2.1 + (td "<rp").2.1,
         (td "<rm").2.2 + (td "<i").2.2 + (td "<rp").2.2) ∧
    combined_tag_prf td "<rm.<i.<rp"
      = p_r_f ((td "<rm").1 + (td "<i").1 + (td "<rp").1)
          ((td "<rm").2.1 + (td "<i").2.1 + (td "<rp").2.1)
          ((td "<rm").2.2 + (td "<i").2.2 + (td "<rp").2.2) := by
  have hsplit : py_split_ok "<rm.<i.<rp" '.' = ["<rm", "<i", "<rp"] := by
    decide
  have hc : combined_tag_counts td "<rm.<i.<rp"
      = ((td "<rm").1 + (td "<i").1 + (td "<rp").1,
         (td "<rm").2.1 + (td "<i").2.1 + (td "<rp").2.1,
         (td "<rm").2.2 + (td "<i").2.2 + (td "<rp").2.2) := by
    simp [combined_tag_counts, hsplit]
  exact ⟨hc, by simp [combined_tag_prf, hc]⟩

/-- Claim C7: the reported time-to-detection value is the arithmetic mean
of the recorded samples only: a never-detected gold event contributes no
sample to the averaged list, an event detected k time-units late
contributes the sample k, a single event detected exactly at its onset
gives the average 0, and on a nonempty sample list the reported value is
the sum of the samples divided by their number. -/
theorem c7_time_to_detection_mean (evs : List GoldEvent) (o t k : ℚ) :
    ttd_samples ({ onset := o, detected := none } :: evs) = ttd_samples evs ∧
    ttd_samples ({ onset := o, detected := some (o + k) } :: evs)
      = k :: ttd_samples evs ∧
    t_t_detection_result (ttd_samples [{ onset := t, detected := some t }])
      = some 0 ∧
    t_t_detection_result
        (ttd_samples ({ onset := o, detected := some (o + k) } :: evs))
      = some ((k :: ttd_samples evs).sum / ((k :: ttd_samples evs).length : ℚ)) := by
  refine ⟨rfl, ?_, ?_, ?_⟩
  · simp [ttd_samples]
  · simp [ttd_samples, t_t_detection_result, np_average]
  · simp only [ttd_samples]
    have : o + k - o = k := by ring
    rw [this]
    simp [t_t_detection_result, np_average]

/-- Claim C6: a speaker key that is missing from the gold dict is skipped
with a printed notice by both speaker loops: the run goes on (both loops
are total functions of the remaining keys) and the skipped key leaves the
accuracy and speaker-rate state of the final loop, and the prediction dict
plus the time-to-detection and edit-overhead state of the incremental
loop, exactly unchanged. -/
theorem c6_missing_speaker_skipped {σ τ : Type}
    (golD : String → Option GoldVal)
    (metrics : String → List (ℚ × Snapshot) → GoldVal → σ → σ)
    (process : String → HypEntry → GoldVal → τ → τ)
    (pred : List (String × HypEntry)) (ks1 ks2 : List String) (s : String)
    (t0 : τ) (st : List (String × HypEntry) × σ) (hs : golD s = none) :
    final_eval_loop golD process (ks1 ++ s :: ks2) pred t0
      = final_eval_loop golD process (ks1 ++ ks2) pred t0 ∧
    inc_speaker_pass golD metrics (ks1 ++ s :: ks2) st
      = inc_speaker_pass golD metrics (ks1 ++ ks2) st := by
  constructor
  · unfold final_eval_loop
    rw [List.foldl_append, List.foldl_append, List.foldl_cons]
    have hid : final_step golD process pred
        (List.foldl (final_step golD process pred) t0 ks1) s
        = List.foldl (final_step golD process pred) t0 ks1 := by
      unfold final_step
      rw [hs]
    rw [hid]
  · unfold inc_speaker_pass
    rw [List.foldl_append, List.foldl_append, List.foldl_cons]
    rw [inc_step_gold_none _ _ _ _ hs]

/-- Witness for claim C6: gold is empty, so speaker B is skipped by both
loops and the results over the key lists with and without B agree. -/
theorem c6_missing_speaker_skipped_witness :
    (fun (_ : String) => (none : Option GoldVal)) "B" = none ∧
    (final_eval_loop (fun _ => none) (fun _ _ _ (n : ℕ) => n + 1)
        ([] ++ "B" :: ["A"]) [] 0
      = final_eval_loop (fun _ => none) (fun _ _ _ (n : ℕ) => n + 1)
        ([] ++ ["A"]) [] 0 ∧
     inc_speaker_pass (fun _ => none) (fun _ _ _ (n : ℕ) => n + 1)
        ([] ++ "B" :: ["A"]) ([], 0)
      = inc_speaker_pass (fun _ => none) (fun _ _ _ (n : ℕ) => n + 1)
        ([] ++ ["A"]) ([], 0)) :=
  ⟨rfl, c6_missing_speaker_skipped (fun _ => none)
    (fun _ _ _ (n : ℕ) => n + 1) (fun _ _ _ (n : ℕ) => n + 1)
    [] [] ["A"] "B" 0 ([], 0) rfl⟩

/-- Claim C10: incremental_output_disfluency_eval mutates its prediction
dict in place: after the call, every speaker key that gold also holds and
whose entry was a snapshot stream holds the stabilized final hypothesis
instead, every speaker key absent from gold keeps its original entry, and
the gold dict is returned exactly as it was passed (the source never
assigns to gold_speakers_dict). -/
theorem c10_prediction_dict_mutation {σ τ : Type}
    (golD : String → Option GoldVal)
    (metrics : String → List (ℚ × Snapshot) → GoldVal → σ → σ)
    (process : String → HypEntry → GoldVal → τ → τ)
    (pred : List (String × HypEntry)) (m0 : σ) (t0 : τ)
    (hnd : (pred.map Prod.fst).Nodup) :
    (∀ s snaps g, golD s = some g →
        dict_lookup pred s = some (HypEntry.stream snaps) →
        dict_lookup
            (incremental_output_disfluency_eval golD metrics process
              pred m0 t0).1 s
          = some (HypEntry.finalHyp (stabilize snaps))) ∧
    (∀ s, golD s = none →
        dict_lookup
            (incremental_output_disfluency_eval golD metrics process
              pred m0 t0).1 s
          = dict_lookup pred s) ∧
    (incremental_output_disfluency_eval golD metrics process
        pred m0 t0).2.1 = golD := by
  refine ⟨?_, ?_, rfl⟩
  · intro s snaps g hg hl
    show dict_lookup
        (inc_speaker_pass golD metrics (sorted_keys pred) (pred, m0)).1 s
      = some (HypEntry.finalHyp (stabilize snaps))
    exact inc_pass_lookup_stream _ _ _ _ _ _ _
      (sorted_keys_nodup _ hnd)
      (mem_sorted_keys _ _ (dict_lookup_mem_keys _ _ _ hl)) hg hl
  · intro s hsg
    show dict_lookup
        (inc_speaker_pass golD metrics (sorted_keys pred) (pred, m0)).1 s
      = dict_lookup pred s
    exact inc_pass_lookup_gold_none _ _ _ _ _ hsg

/-- Witness for claim C10: a one-speaker dict whose stream entry is
replaced by the stabilized final hypothesis. -/
theorem c10_prediction_dict_mutation_witness :
    (([("A", HypEntry.stream [((0 : ℚ), ([] : Snapshot))])].map
        Prod.fst).Nodup) ∧
    dict_lookup
        (incremental_output_disfluency_eval
          (fun s => if s = "A" then some (GoldVal.mk [] [] [] []) else none)
          (fun _ _ _ (n : ℕ) => n + 1) (fun _ _ _ (n : ℕ) => n)
          [("A", HypEntry.stream [((0 : ℚ), ([] : Snapshot))])] 0 0).1 "A"
      = some (HypEntry.finalHyp (stabilize [((0 : ℚ), ([] : Snapshot))])) :=
  ⟨by simp,
   (c10_prediction_dict_mutation
      (fun s => if s = "A" then some (GoldVal.mk [] [] [] []) else none)
      (fun _ _ _ (n : ℕ) => n + 1) (fun _ _ _ (n : ℕ) => n)
      [("A", HypEntry.stream [((0 : ℚ), ([] : Snapshot))])] 0 0
      (by simp)).1 "A" [((0 : ℚ), ([] : Snapshot))] (GoldVal.mk [] [] [] [])
      (by simp) (by simp [dict_lookup])⟩

/-- Claim C3: when every speaker entry of the prediction dict is a
degenerate single-snapshot stream (no revisions), the final-evaluation
state computed by incremental_output_disfluency_eval (which replaces each
in-gold stream by the stabilized final hypothesis and then invokes the
final loop on the mutated dict) equals the final-evaluation state of
running the final loop directly on the very snapshots read as final
hypotheses.  Since the process argument abstracts the tag-counter updates
of the final scorer, the equality holds for the Tag Counter values in
particular, and hence for every per-tag precision, recall and F1 computed
from them. -/
theorem c3_single_snapshot_roundtrip {σ τ : Type}
    (golD : String → Option GoldVal)
    (metrics : String → List (ℚ × Snapshot) → GoldVal → σ → σ)
    (process : String → HypEntry → GoldVal → τ → τ)
    (pred : List (String × HypEntry)) (m0 : σ) (t0 : τ)
    (hnd : (pred.map Prod.fst).Nodup)
    (hsingle : ∀ p ∈ pred, ∃ t snap, p.2 = HypEntry.stream [(t, snap)]) :
    (incremental_output_disfluency_eval golD metrics process
        pred m0 t0).2.2.2
      = final_eval_loop golD process
          (sorted_keys (pred.map (fun p => (p.1, single_final_entry p.2))))
          (pred.map (fun p => (p.1, single_final_entry p.2))) t0 := by
  have hkeys1 : (inc_speaker_pass golD metrics (sorted_keys pred)
      (pred, m0)).1.map Prod.fst = pred.map Prod.fst :=
    inc_pass_keys _ _ _ _
  have hkeys2 : (pred.map (fun p => (p.1, single_final_entry p.2))).map
      Prod.fst = pred.map Prod.fst := by
    simp
  show final_eval_loop golD process
      (sorted_keys (inc_speaker_pass golD metrics (sorted_keys pred)
        (pred, m0)).1)
      (inc_speaker_pass golD metrics (sorted_keys pred) (pred, m0)).1 t0
    = _
  rw [sorted_keys_congr
      (inc_speaker_pass golD metrics (sorted_keys pred) (pred, m0)).1
      pred hkeys1]
  rw [sorted_keys_congr
      (pred.map (fun p => (p.1, single_final_entry p.2))) pred hkeys2]
  apply final_eval_loop_congr
  intro s hsmem g hg
  cases hl : dict_lookup pred s with
  | none =>
    rw [inc_pass_lookup_none _ _ _ _ _ hl, dict_lookup_map, hl]
    rfl
  | some e =>
    obtain ⟨t, snap, he⟩ :=
      hsingle (s, e) (dict_lookup_mem _ _ _ hl)
    have hl2 : dict_lookup pred s
        = some (HypEntry.stream [(t, snap)]) := by
      rw [hl]
      exact congrArg some he
    rw [inc_pass_lookup_stream golD metrics (sorted_keys pred) (pred, m0)
        s [(t, snap)] g (sorted_keys_nodup _ hnd) hsmem hg hl2]
    rw [dict_lookup_map, hl2]
    rw [stabilize_singleton]
    rfl

/-- Witness for claim C3: one speaker with a single empty snapshot; the
incremental route and the direct final route agree. -/
theorem c3_single_snapshot_roundtrip_witness :
    (([("A", HypEntry.stream [((0 : ℚ), ([] : Snapshot))])].map
        Prod.fst).Nodup ∧
     (∀ p ∈ [("A", HypEntry.stream [((0 : ℚ), ([] : Snapshot))])],
        ∃ t snap, p.2 = HypEntry.stream [(t, snap)])) ∧
    (incremental_output_disfluency_eval
        (fun s => if s = "A" then some (GoldVal.mk [] [] [] []) else none)
        (fun _ _ _ (n : ℕ) => n + 1) (fun _ _ _ (n : ℕ) => n + 3)
        [("A", HypEntry.stream [((0 : ℚ), ([] : Snapshot))])] 0 0).2.2.2
      = final_eval_loop
          (fun s => if s = "A" then some (GoldVal.mk [] [] [] []) else none)
          (fun _ _ _ (n : ℕ) => n + 3)
          (sorted_keys
            ([("A", HypEntry.stream [((0 : ℚ), ([] : Snapshot))])].map
              (fun p => (p.1, single_final_entry p.2))))
          ([("A", HypEntry.stream [((0 : ℚ), ([] : Snapshot))])].map
            (fun p => (p.1, single_final_entry p.2))) 0 :=
  ⟨⟨by simp,
    by
      intro p hp
      rw [List.mem_singleton] at hp
      subst hp
      exact ⟨0, [], rfl⟩⟩,
   c3_single_snapshot_roundtrip
     (fun s => if s = "A" then some (GoldVal.mk [] [] [] []) else none)
     (fun _ _ _ (n : ℕ) => n + 1) (fun _ _ _ (n : ℕ) => n + 3)
     [("A", HypEntry.stream [((0 : ℚ), ([] : Snapshot))])] 0 0
     (by simp)
     (by
       intro p hp
       rw [List.mem_singleton] at hp
       subst hp
       exact ⟨0, [], rfl⟩)⟩

/-- Claim C9: save_results_to_file raises an exception before completing
on every input: the split of ACCURACY_HEADER on the empty separator at
line 568 raises ValueError on every call, so the results row is never
fully written and the speaker-rate section, including the
unbound-local-variable branch at line 574, is never reached. -/
theorem c9_save_results_always_raises (rex spex : Bool)
    (model_info results : String → String) (test_filename : String)
    (srd : List (String × List ℚ)) :
    save_results_to_file rex spex model_info results test_filename srd
      = Except.error "ValueError: empty separator" :=
  rfl

end DisfEval
